import Mathlib

/-!
SAY likelihoods (`src/Likelihood.h`)

Shallow embedding of the likelihood functors of namespace `SAY::detail` and
proofs of their contract.

Modelling conventions.

* The functors are templates over a numeric type `T`.  The embedding is generic
  over a linearly ordered field `T` (exact arithmetic): `+ - * /` and the
  comparisons of the source are the field operations and the order of `T`.
* `log`, `lgamma` and `sqrt` come from `<cmath>`, not from this library; they are
  taken as a parameter, a record `CMath T`.  `fabs` is the absolute value of the
  ordered field.  Theorems that need the real functions instantiate the record
  with `Real.log`, `fun x => Real.log |Real.Gamma x|` and `Real.sqrt`.
* The one non-finite number the source writes down itself,
  `-std::numeric_limits<T>::infinity()`, is the constructor `Value.negInf`.
* `throw std::invalid_argument` is `Except.error`; the error keeps the value that
  the source prints into its message.
* The count `k` (a `double` in the source) is taken in `T`, the instantiation
  `T = double` of the templates.
* A second embedding, namespace `IEEE`, reads the same source on a model of
  IEEE-754 binary64 (`Double`: rounding to nearest even, overflow, underflow,
  NaN).  Statements that hold in exact arithmetic only are proved on the first
  embedding and refuted on the second one at a concrete input.
-/

set_option linter.unusedVariables false

namespace SAY
namespace detail

/-- Functions of `<cmath>` that the library calls on its numeric type. -/
structure CMath (T : Type) where
  /-- Natural logarithm `log`. -/
  log : T → T
  /-- Logarithm of the absolute value of the gamma function, `lgamma`. -/
  lgamma : T → T
  /-- Square root `sqrt`. -/
  sqrt : T → T

/-- Result of a likelihood functor: a number of `T`, or the value
`-std::numeric_limits<T>::infinity()` that the source returns explicitly. -/
inductive Value (T : Type) where
  | negInf : Value T
  | fin (x : T) : Value T
  deriving DecidableEq, Repr

/-- Exception `std::invalid_argument` thrown by `LogOnePlusX`; its message is
`"Invalid input argument (" << x << "); must be greater than -1.0"`, so it is
determined by the offending value `x`. -/
inductive Error (T : Type) where
  | invalid_argument (x : T) : Error T
  deriving DecidableEq, Repr

section Generic

variable {T : Type} [LinearOrderedField T]

/-- One iteration of the loop of `accumulate` (lines 19-28) on the loop state
`(sum, running_error)` with `x = *begin`. -/
def accumulateStep (st : T × T) (x : T) : T × T :=
  let sum := st.1
  let running_error := st.2
  let difference := x - running_error
  let temp := sum + difference
  let running_error := temp - sum - difference
  (temp, running_error)

/-- Loop state `(sum, running_error)` of `accumulate` after the whole range. -/
def accumulateLoop (xs : List T) : T × T :=
  xs.foldl accumulateStep (0, 0)

/-- Embedding of `accumulate(begin, end)` (lines 11-30): compensated summation of
the range, given as a list. -/
def accumulate (xs : List T) : T :=
  (accumulateLoop xs).1

/-- Embedding of `LogOnePlusX(x)` (lines 33-56). -/
def LogOnePlusX (m : CMath T) (x : T) : Except (Error T) T :=
  if x ≤ -1 then
    .error (.invalid_argument x)
  else if |x| > 1 / 10000 then
    .ok (m.log (1 + x))
  else
    let x2 := x * x
    let x3 := x2 * x
    let x4 := x3 * x
    .ok (x - x2 / 2 + x3 / 3 - x4 / 4)

/-- Embedding of `poissonLikelihood::operator()` (lines 58-67). -/
def poissonLikelihood (m : CMath T) (dataCount lambda w2_sum : T) : Value T :=
  if lambda = 0 then
    (if dataCount = 0 then .fin 0 else .negInf)
  else
    let sum := lambda + m.lgamma (dataCount + 1)
    .fin (dataCount * m.log lambda - sum)

/-- Embedding of `gammaPriorPoissonLikelihood::operator()` (lines 69-80). -/
def gammaPriorPoissonLikelihood (m : CMath T) (k alpha beta : T) : Except (Error T) T := do
  let items0 := alpha * m.log beta
  let items1 := m.lgamma (k + alpha)
  let items2 := -m.lgamma (k + 1)
  let items3 := -(k + alpha) * (← LogOnePlusX m beta)
  let items4 := -m.lgamma alpha
  return accumulate [items0, items1, items2, items3, items4]

/-- Embedding of `SAYMeanLikelihood::operator()` (lines 82-110). -/
def SAYMeanLikelihood (m : CMath T) (k w_sum w2_sum : T) : Except (Error T) (Value T) :=
  if w_sum ≤ 0 ∨ w2_sum < 0 then
    .ok (if k = 0 then .fin 0 else .negInf)
  else if w2_sum = 0 then
    .ok (poissonLikelihood m k w_sum w2_sum)
  else
    let one : T := 1
    let zero : T := 0
    if w_sum = zero then
      (if k = 0 then .ok (.fin zero) else .ok .negInf)
    else do
      let alpha := w_sum * w_sum / w2_sum
      let beta := w_sum / w2_sum
      let L ← gammaPriorPoissonLikelihood m k alpha beta
      return .fin L

/-- Embedding of `SAYModeLikelihood::operator()` (lines 112-144). -/
def SAYModeLikelihood (m : CMath T) (k w_sum w2_sum : T) : Except (Error T) (Value T) :=
  if w_sum ≤ 0 ∨ w2_sum < 0 then
    .ok (if k = 0 then .fin 0 else .negInf)
  else if w2_sum = 0 then
    .ok (poissonLikelihood m k w_sum w2_sum)
  else
    let one : T := 1
    let zero : T := 0
    if w_sum = zero then
      (if k = 0 then .ok (.fin zero) else .ok .negInf)
    else do
      let mu := w_sum
      let mu2 := mu * mu
      let sigma2 := w2_sum
      let beta := (mu + m.sqrt (mu2 + sigma2 * 4)) / (sigma2 * 2)
      let alpha := (mu * m.sqrt (mu2 + sigma2 * 4) / sigma2 + mu2 / sigma2 + 2) / 2
      let L ← gammaPriorPoissonLikelihood m k alpha beta
      return .fin L

/-- Embedding of `SAYUninformedLikelihood::operator()` (lines 146-174). -/
def SAYUninformedLikelihood (m : CMath T) (k w_sum w2_sum : T) : Except (Error T) (Value T) :=
  if w_sum ≤ 0 ∨ w2_sum < 0 then
    .ok (if k = 0 then .fin 0 else .negInf)
  else if w2_sum = 0 then
    .ok (poissonLikelihood m k w_sum w2_sum)
  else
    let one : T := 1
    let zero : T := 0
    if w_sum = zero then
      (if k = 0 then .ok (.fin zero) else .ok .negInf)
    else do
      let alpha := w_sum * w_sum / w2_sum + 1
      let beta := w_sum / w2_sum
      let L ← gammaPriorPoissonLikelihood m k alpha beta
      return .fin L

end Generic

/-! ## The instantiation `T = double`

The second embedding below is the same source text read on IEEE-754 binary64
numbers, the arithmetic the library runs on: every `+ - * /` is the exact
rational operation followed by one rounding to nearest, ties to even, with
overflow to an infinity, gradual underflow, and the NaN rules for `inf - inf`,
`0 * inf`, `0 / 0` and `inf / inf`.  The two zeros are one value (no operation
of the embedded code reaches a division by zero in what is proved below).
`log`, `lgamma` and `sqrt` stay a parameter `CMath Double`. -/

/-- An IEEE-754 binary64 number: NaN, an infinity with its sign, or a finite number
given by its exact rational value. -/
inductive Double where
  | nan : Double
  | inf (neg : Bool) : Double
  | fin (q : ℚ) : Double
  deriving DecidableEq, Repr

namespace Double

/-- The rational `2 ^ e`. -/
def pow2 (e : ℤ) : ℚ :=
  if 0 ≤ e then ((2 ^ e.toNat : ℕ) : ℚ) else 1 / ((2 ^ (-e).toNat : ℕ) : ℚ)

/-- Number of halvings that bring `n` below `2`; `fuel` bounds the recursion. -/
def log2Aux : ℕ → ℕ → ℕ
  | 0, _ => 0
  | fuel + 1, n => if n < 2 then 0 else log2Aux fuel (n / 2) + 1

/-- Floor of the binary logarithm of a positive natural number. -/
def log2 (n : ℕ) : ℕ := log2Aux n n

/-- Floor of the binary logarithm of a positive rational `a`: the `e` with
`2 ^ e ≤ a < 2 ^ (e + 1)`. -/
def ilog2 (a : ℚ) : ℤ :=
  let d : ℤ := (log2 a.num.natAbs : ℤ) - (log2 a.den : ℤ)
  if pow2 d ≤ a then d else d - 1

/-- The integer nearest to `N / D`, ties to the even one. -/
def roundHalfEven (N D : ℕ) : ℕ :=
  let n := N / D
  let r := N % D
  if 2 * r < D then n
  else if D < 2 * r then n + 1
  else if n % 2 = 0 then n else n + 1

/-- The double nearest to the rational `q` (round to nearest, ties to even): a
53-bit significand, exponents of the unit in the last place from `-1074`
(subnormal numbers) upwards, overflow to an infinity from `2 ^ 1024` on.  It is
what a decimal literal of the source denotes and what each arithmetic operation
applies to its exact result. -/
def nearest (q : ℚ) : Double :=
  if q = 0 then fin 0
  else
    let a : ℚ := if q < 0 then -q else q
    if pow2 1024 ≤ a then inf (decide (q < 0))
    else
      let e : ℤ := max (ilog2 a) (-1022)
      let s : ℤ := e - 52
      let n : ℕ :=
        if 0 ≤ s then roundHalfEven a.num.natAbs (a.den * 2 ^ s.toNat)
        else roundHalfEven (a.num.natAbs * 2 ^ (-s).toNat) a.den
      let r : ℚ := (n : ℚ) * pow2 s
      if pow2 1024 ≤ r then inf (decide (q < 0))
      else fin (if q < 0 then -r else r)

/-- Unary minus. -/
def neg : Double → Double
  | nan => nan
  | inf s => inf (!s)
  | fin q => fin (-q)

/-- Addition. -/
def add : Double → Double → Double
  | nan, _ => nan
  | _, nan => nan
  | inf s, inf t => if s = t then inf s else nan
  | inf s, fin _ => inf s
  | fin _, inf t => inf t
  | fin a, fin b => nearest (a + b)

/-- Subtraction. -/
def sub (x y : Double) : Double := add x (neg y)

/-- Multiplication. -/
def mul : Double → Double → Double
  | nan, _ => nan
  | _, nan => nan
  | inf s, inf t => inf (xor s t)
  | inf s, fin b => if b = 0 then nan else inf (xor s (decide (b < 0)))
  | fin a, inf t => if a = 0 then nan else inf (xor (decide (a < 0)) t)
  | fin a, fin b => nearest (a * b)

/-- Division. -/
def div : Double → Double → Double
  | nan, _ => nan
  | _, nan => nan
  | inf _, inf _ => nan
  | inf s, fin b => inf (xor s (decide (b < 0)))
  | fin _, inf _ => fin 0
  | fin a, fin b =>
    if b = 0 then (if a = 0 then nan else inf (decide (a < 0))) else nearest (a / b)

/-- Comparison `<`; false when an operand is NaN. -/
def lt : Double → Double → Bool
  | nan, _ => false
  | _, nan => false
  | inf s, inf t => s && !t
  | inf s, fin _ => s
  | fin _, inf t => !t
  | fin a, fin b => decide (a < b)

/-- Comparison `<=`; false when an operand is NaN. -/
def le : Double → Double → Bool
  | nan, _ => false
  | _, nan => false
  | inf s, inf t => s || !t
  | inf s, fin _ => s
  | fin _, inf t => !t
  | fin a, fin b => decide (a ≤ b)

/-- Absolute value `fabs`. -/
def fabs : Double → Double
  | nan => nan
  | inf _ => inf false
  | fin q => fin (if q < 0 then -q else q)

end Double

namespace IEEE

/-- One iteration of the loop of `accumulate` (lines 19-28) on doubles. -/
def accumulateStep (st : Double × Double) (x : Double) : Double × Double :=
  let sum := st.1
  let running_error := st.2
  let difference := Double.sub x running_error
  let temp := Double.add sum difference
  let running_error := Double.sub (Double.sub temp sum) difference
  (temp, running_error)

/-- Loop state `(sum, running_error)` of `accumulate` after the whole range. -/
def accumulateLoop (xs : List Double) : Double × Double :=
  xs.foldl accumulateStep (Double.fin 0, Double.fin 0)

/-- `accumulate(begin, end)` (lines 11-30) on doubles. -/
def accumulate (xs : List Double) : Double :=
  (accumulateLoop xs).1

/-- `LogOnePlusX(x)` (lines 33-56) on doubles. -/
def LogOnePlusX (m : CMath Double) (x : Double) : Except (Error Double) Double :=
  if Double.le x (Double.fin (-1)) then
    .error (.invalid_argument x)
  else if Double.lt (Double.nearest (1 / 10000)) (Double.fabs x) then
    .ok (m.log (Double.add (Double.fin 1) x))
  else
    let x2 := Double.mul x x
    let x3 := Double.mul x2 x
    let x4 := Double.mul x3 x
    .ok (Double.sub
      (Double.add (Double.sub x (Double.div x2 (Double.fin 2))) (Double.div x3 (Double.fin 3)))
      (Double.div x4 (Double.fin 4)))

/-- `poissonLikelihood::operator()` (lines 58-67) on doubles. -/
def poissonLikelihood (m : CMath Double) (dataCount lambda w2_sum : Double) : Double :=
  if lambda = Double.fin 0 then
    (if dataCount = Double.fin 0 then Double.fin 0 else Double.inf true)
  else
    let sum := Double.add lambda (m.lgamma (Double.add dataCount (Double.fin 1)))
    Double.sub (Double.mul dataCount (m.log lambda)) sum

/-- `gammaPriorPoissonLikelihood::operator()` (lines 69-80) on doubles. -/
def gammaPriorPoissonLikelihood (m : CMath Double) (k alpha beta : Double) :
    Except (Error Double) Double := do
  let items0 := Double.mul alpha (m.log beta)
  let items1 := m.lgamma (Double.add k alpha)
  let items2 := Double.neg (m.lgamma (Double.add k (Double.fin 1)))
  let items3 := Double.mul (Double.neg (Double.add k alpha)) (← LogOnePlusX m beta)
  let items4 := Double.neg (m.lgamma alpha)
  return accumulate [items0, items1, items2, items3, items4]

/-- `SAYMeanLikelihood::operator()` (lines 82-110) on doubles. -/
def SAYMeanLikelihood (m : CMath Double) (k w_sum w2_sum : Double) :
    Except (Error Double) Double :=
  if Double.le w_sum (Double.fin 0) || Double.lt w2_sum (Double.fin 0) then
    .ok (if k = Double.fin 0 then Double.fin 0 else Double.inf true)
  else if w2_sum = Double.fin 0 then
    .ok (poissonLikelihood m k w_sum w2_sum)
  else
    let one : Double := Double.fin 1
    let zero : Double := Double.fin 0
    if w_sum = zero then
      (if k = Double.fin 0 then .ok zero else .ok (Double.inf true))
    else do
      let alpha := Double.div (Double.mul w_sum w_sum) w2_sum
      let beta := Double.div w_sum w2_sum
      let L ← gammaPriorPoissonLikelihood m k alpha beta
      return L

/-- `SAYModeLikelihood::operator()` (lines 112-144) on doubles. -/
def SAYModeLikelihood (m : CMath Double) (k w_sum w2_sum : Double) :
    Except (Error Double) Double :=
  if Double.le w_sum (Double.fin 0) || Double.lt w2_sum (Double.fin 0) then
    .ok (if k = Double.fin 0 then Double.fin 0 else Double.inf true)
  else if w2_sum = Double.fin 0 then
    .ok (poissonLikelihood m k w_sum w2_sum)
  else
    let one : Double := Double.fin 1
    let zero : Double := Double.fin 0
    if w_sum = zero then
      (if k = Double.fin 0 then .ok zero else .ok (Double.inf true))
    else do
      let mu := w_sum
      let mu2 := Double.mul mu mu
      let sigma2 := w2_sum
      let beta := Double.div
        (Double.add mu (m.sqrt (Double.add mu2 (Double.mul sigma2 (Double.fin 4)))))
        (Double.mul sigma2 (Double.fin 2))
      let alpha := Double.div
        (Double.add
          (Double.add
            (Double.div
              (Double.mul mu (m.sqrt (Double.add mu2 (Double.mul sigma2 (Double.fin 4)))))
              sigma2)
            (Double.div mu2 sigma2))
          (Double.fin 2))
        (Double.fin 2)
      let L ← gammaPriorPoissonLikelihood m k alpha beta
      return L

/-- `SAYUninformedLikelihood::operator()` (lines 146-174) on doubles. -/
def SAYUninformedLikelihood (m : CMath Double) (k w_sum w2_sum : Double) :
    Except (Error Double) Double :=
  if Double.le w_sum (Double.fin 0) || Double.lt w2_sum (Double.fin 0) then
    .ok (if k = Double.fin 0 then Double.fin 0 else Double.inf true)
  else if w2_sum = Double.fin 0 then
    .ok (poissonLikelihood m k w_sum w2_sum)
  else
    let one : Double := Double.fin 1
    let zero : Double := Double.fin 0
    if w_sum = zero then
      (if k = Double.fin 0 then .ok zero else .ok (Double.inf true))
    else do
      let alpha := Double.add (Double.div (Double.mul w_sum w_sum) w2_sum) (Double.fin 1)
      let beta := Double.div w_sum w2_sum
      let L ← gammaPriorPoissonLikelihood m k alpha beta
      return L

end IEEE

/-! ## Shared lemmas -/

section Lemmas

variable {T : Type} [LinearOrderedField T]

/-- In exact arithmetic the compensated sum of five terms is their plain sum. -/
theorem accumulate_five (a b c d e : T) :
    accumulate [a, b, c, d, e] = a + b + c + d + e := by
  simp only [accumulate, accumulateLoop, List.foldl, accumulateStep]
  ring

/-- The result of `LogOnePlusX` above the domain bound. -/
theorem LogOnePlusX_of_gt (m : CMath T) (x : T) (hx : -1 < x) :
    LogOnePlusX m x =
      .ok (if |x| > 1 / 10000 then m.log (1 + x)
           else x - x * x / 2 + x * x * x / 3 - x * x * x * x / 4) := by
  unfold LogOnePlusX
  rw [if_neg (not_le.mpr hx)]
  split_ifs <;> rfl

/-- The result of `LogOnePlusX` at or below the domain bound. -/
theorem LogOnePlusX_of_le (m : CMath T) (x : T) (hx : x ≤ -1) :
    LogOnePlusX m x = .error (.invalid_argument x) := by
  unfold LogOnePlusX
  rw [if_pos hx]

/-- Binding a result and returning it wrapped is mapping the wrapper. -/
theorem bind_pure_fin {ε α β : Type} (f : α → β) (x : Except ε α) :
    (x >>= fun a => pure (f a)) = Except.map f x := by
  cases x <;> rfl

/-- The three SAY functors skip their degenerate branches when both moments are
strictly positive. -/
theorem nondegenerate_guards {w_sum w2_sum : T} (hw : 0 < w_sum) (hw2 : 0 < w2_sum) :
    ¬ (w_sum ≤ 0 ∨ w2_sum < 0) ∧ w2_sum ≠ 0 ∧ w_sum ≠ 0 :=
  ⟨fun h => h.elim (fun h => absurd hw (not_lt.mpr h)) (fun h => absurd hw2 (not_lt.mpr h.le)),
    hw2.ne', hw.ne'⟩

/-- Loop invariant of `accumulate` in exact arithmetic: started with a zero
correction, the loop adds the plain sum and leaves the correction zero. -/
theorem foldl_accumulateStep (xs : List T) (s : T) :
    xs.foldl accumulateStep (s, 0) = (s + xs.sum, 0) := by
  induction xs generalizing s with
  | nil => simp
  | cons x xs ih =>
    have hstep : accumulateStep (s, 0) x = (s + x, 0) := by
      simp only [accumulateStep]
      congr 1 <;> ring
    rw [List.foldl_cons, hstep, ih, List.sum_cons, add_assoc]

/-- Final loop state of `accumulate`. -/
theorem accumulateLoop_eq (xs : List T) : accumulateLoop xs = (xs.sum, 0) := by
  rw [accumulateLoop, foldl_accumulateStep, zero_add]

/-- First guard of the three SAY functors (`w_sum <= 0 || w2_sum < 0`). -/
theorem SAY_first_guard (m : CMath T) (k w_sum w2_sum : T) (h : w_sum ≤ 0 ∨ w2_sum < 0) :
    SAYMeanLikelihood m k w_sum w2_sum = .ok (if k = 0 then .fin 0 else .negInf) ∧
    SAYModeLikelihood m k w_sum w2_sum = .ok (if k = 0 then .fin 0 else .negInf) ∧
    SAYUninformedLikelihood m k w_sum w2_sum = .ok (if k = 0 then .fin 0 else .negInf) := by
  refine ⟨?_, ?_, ?_⟩
  · unfold SAYMeanLikelihood
    rw [if_pos h]
  · unfold SAYModeLikelihood
    rw [if_pos h]
  · unfold SAYUninformedLikelihood
    rw [if_pos h]

/-- Second guard of the three SAY functors (`w2_sum == 0`), reached when the
first one is not taken. -/
theorem SAY_second_guard (m : CMath T) (k w_sum : T) (hw : 0 < w_sum) :
    SAYMeanLikelihood m k w_sum 0 = .ok (poissonLikelihood m k w_sum 0) ∧
    SAYModeLikelihood m k w_sum 0 = .ok (poissonLikelihood m k w_sum 0) ∧
    SAYUninformedLikelihood m k w_sum 0 = .ok (poissonLikelihood m k w_sum 0) := by
  have h1 : ¬ (w_sum ≤ 0 ∨ (0 : T) < 0) :=
    fun h => h.elim (fun h => absurd hw (not_lt.mpr h)) (lt_irrefl _)
  refine ⟨?_, ?_, ?_⟩
  · unfold SAYMeanLikelihood
    rw [if_neg h1, if_pos rfl]
  · unfold SAYModeLikelihood
    rw [if_neg h1, if_pos rfl]
  · unfold SAYUninformedLikelihood
    rw [if_neg h1, if_pos rfl]

/-- Delegation of `SAYMeanLikelihood` on strictly positive moments, with the
parameters as the source computes them (lines 104-106). -/
theorem SAYMeanLikelihood_delegates (m : CMath T) (k w_sum w2_sum : T)
    (hw : 0 < w_sum) (hw2 : 0 < w2_sum) :
    SAYMeanLikelihood m k w_sum w2_sum =
      (gammaPriorPoissonLikelihood m k (w_sum * w_sum / w2_sum) (w_sum / w2_sum)).map .fin := by
  obtain ⟨g1, g2, g3⟩ := nondegenerate_guards hw hw2
  unfold SAYMeanLikelihood
  rw [if_neg g1, if_neg g2]
  simp only [if_neg g3]
  rw [← bind_pure_fin]

/-- Delegation of `SAYModeLikelihood` on strictly positive moments, with the
parameters as the source computes them (lines 134-140). -/
theorem SAYModeLikelihood_delegates (m : CMath T) (k w_sum w2_sum : T)
    (hw : 0 < w_sum) (hw2 : 0 < w2_sum) :
    SAYModeLikelihood m k w_sum w2_sum =
      (gammaPriorPoissonLikelihood m k
        ((w_sum * m.sqrt (w_sum * w_sum + w2_sum * 4) / w2_sum + w_sum * w_sum / w2_sum + 2) / 2)
        ((w_sum + m.sqrt (w_sum * w_sum + w2_sum * 4)) / (w2_sum * 2))).map .fin := by
  obtain ⟨g1, g2, g3⟩ := nondegenerate_guards hw hw2
  unfold SAYModeLikelihood
  rw [if_neg g1, if_neg g2]
  simp only [if_neg g3]
  rw [← bind_pure_fin]

/-- Delegation of `SAYUninformedLikelihood` on strictly positive moments, with the
parameters as the source computes them (lines 168-170). -/
theorem SAYUninformedLikelihood_delegates (m : CMath T) (k w_sum w2_sum : T)
    (hw : 0 < w_sum) (hw2 : 0 < w2_sum) :
    SAYUninformedLikelihood m k w_sum w2_sum =
      (gammaPriorPoissonLikelihood m k (w_sum * w_sum / w2_sum + 1)
        (w_sum / w2_sum)).map .fin := by
  obtain ⟨g1, g2, g3⟩ := nondegenerate_guards hw hw2
  unfold SAYUninformedLikelihood
  rw [if_neg g1, if_neg g2]
  simp only [if_neg g3]
  rw [← bind_pure_fin]

/-- Above the domain bound of `LogOnePlusX` the Gamma-prior likelihood returns a
value. -/
theorem gammaPriorPoissonLikelihood_ok (m : CMath T) (k alpha beta : T) (h : -1 < beta) :
    ∃ v, gammaPriorPoissonLikelihood m k alpha beta = .ok v := by
  unfold gammaPriorPoissonLikelihood
  rw [LogOnePlusX_of_gt m beta h]
  exact ⟨_, rfl⟩

end Lemmas

section RealLemmas

/-- The discriminant of SAY-Mode, its square root, and the comparison of the root
with `w_sum`, for strictly positive moments. -/
theorem mode_sqrt_facts (w s : ℝ) (hw : 0 < w) (hs : 0 < s) :
    0 < w * w + s * 4 ∧
    Real.sqrt (w * w + s * 4) * Real.sqrt (w * w + s * 4) = w * w + s * 4 ∧
    w < Real.sqrt (w * w + s * 4) := by
  have hd : 0 < w * w + s * 4 := by positivity
  have hsq := Real.mul_self_sqrt hd.le
  refine ⟨hd, hsq, ?_⟩
  by_contra hc
  have h0 := Real.sqrt_nonneg (w * w + s * 4)
  nlinarith [not_lt.mp hc]

/-- Truncation error of the 4-term series of `LogOnePlusX` in its regime. -/
theorem log1p_series_error (x : ℝ) (hx : |x| ≤ 1 / 10000) :
    |(x - x * x / 2 + x * x * x / 3 - x * x * x * x / 4) - Real.log (1 + x)|
      ≤ |x| ^ 5 / (1 - |x|) := by
  have hlt : |(-x)| < 1 := by
    rw [abs_neg]
    exact lt_of_le_of_lt hx (by norm_num)
  have h := Real.abs_log_sub_add_sum_range_le hlt 4
  rw [abs_neg] at h
  have e : (∑ i ∈ Finset.range 4, (-x) ^ (i + 1) / ((i : ℝ) + 1)) + Real.log (1 - -x)
      = -((x - x * x / 2 + x * x * x / 3 - x * x * x * x / 4) - Real.log (1 + x)) := by
    simp only [Finset.sum_range_succ, Finset.sum_range_zero, sub_neg_eq_add]
    push_cast
    ring
  rw [e, abs_neg] at h
  exact h

/-- In the series regime `|ln(1+x)|` is at least `|x| / 2`. -/
theorem log1p_abs_lower (x : ℝ) (hx : |x| ≤ 1 / 10000) : |x| / 2 ≤ |Real.log (1 + x)| := by
  obtain ⟨h1, h2⟩ := abs_le.mp hx
  have hpos : 0 < 1 + x := by linarith
  rcases le_or_lt 0 x with h | h
  · have hl := Real.one_sub_inv_le_log_of_pos hpos
    have hinv : x / 2 ≤ 1 - (1 + x)⁻¹ := by
      have : 1 - (1 + x)⁻¹ = x / (1 + x) := by field_simp
      rw [this, div_le_div_iff₀ (by norm_num) hpos]
      nlinarith
    have hlog : 0 ≤ Real.log (1 + x) := Real.log_nonneg (by linarith)
    rw [abs_of_nonneg h, abs_of_nonneg hlog]
    linarith
  · have hl := Real.log_le_sub_one_of_pos hpos
    have hlog : Real.log (1 + x) < 0 := by linarith
    rw [abs_of_neg h, abs_of_neg hlog]
    linarith

/-- Size of the truncation bound for `0 ≤ a ≤ 1e-4`. -/
theorem series_bounds (a : ℝ) (h0 : 0 ≤ a) (ha : a ≤ 1 / 10000) :
    a ^ 5 / (1 - a) < 1 / 10 ^ 12 ∧ a ^ 5 / (1 - a) ≤ 1 / 10 ^ 8 * (a / 2) := by
  have hden : 0 < 1 - a := by linarith
  have h4 : a ^ 4 ≤ (1 / 10000) ^ 4 := pow_le_pow_left₀ h0 ha 4
  have h5 : a ^ 5 ≤ a * (1 / 10000) ^ 4 := by
    have : a ^ 5 = a * a ^ 4 := by ring
    rw [this]
    exact mul_le_mul_of_nonneg_left h4 h0
  constructor
  · rw [div_lt_iff₀ hden]
    norm_num at h5 ⊢
    nlinarith
  · rw [div_le_iff₀ hden]
    norm_num at h5 ⊢
    nlinarith

end RealLemmas

section DoubleLemmas

/-- NaN absorbs an addition on the left. -/
theorem Double.add_nan_left (x : Double) : Double.add Double.nan x = Double.nan := by
  cases x <;> rfl

end DoubleLemmas


/-! ## Degenerate inputs of the SAY functors and of the Poisson likelihood -/

section Degenerate

variable {T : Type} [LinearOrderedField T]

/-- C1: for every count `k` and every `w_sum > 0`, with `w2_sum = 0`, each of
`SAYMeanLikelihood`, `SAYModeLikelihood` and `SAYUninformedLikelihood` returns
exactly the value `poissonLikelihood` returns for `(k, w_sum, 0)`. -/
theorem SAY_zero_variance_eq_poisson (m : CMath T) (k w_sum : T) (hw : 0 < w_sum) :
    SAYMeanLikelihood m k w_sum 0 = .ok (poissonLikelihood m k w_sum 0) ∧
    SAYModeLikelihood m k w_sum 0 = .ok (poissonLikelihood m k w_sum 0) ∧
    SAYUninformedLikelihood m k w_sum 0 = .ok (poissonLikelihood m k w_sum 0) := by
  have h1 : ¬ (w_sum ≤ 0 ∨ (0 : T) < 0) := by
    rintro (h | h)
    · exact absurd hw (not_lt.mpr h)
    · exact lt_irrefl _ h
  refine ⟨?_, ?_, ?_⟩
  · unfold SAYMeanLikelihood
    rw [if_neg h1, if_pos rfl]
  · unfold SAYModeLikelihood
    rw [if_neg h1, if_pos rfl]
  · unfold SAYUninformedLikelihood
    rw [if_neg h1, if_pos rfl]

/-- Instance of C1 over the reals with the real `log`, `lgamma`, `sqrt`:
`k = 90`, `w_sum = 100`, `w2_sum = 0`. -/
theorem SAY_zero_variance_eq_poisson_witness :
    (0 : ℝ) < 100 ∧
    (SAYMeanLikelihood ⟨Real.log, fun x => Real.log |Real.Gamma x|, Real.sqrt⟩ (90 : ℝ) 100 0 =
        .ok (poissonLikelihood ⟨Real.log, fun x => Real.log |Real.Gamma x|, Real.sqrt⟩ 90 100 0) ∧
      SAYModeLikelihood ⟨Real.log, fun x => Real.log |Real.Gamma x|, Real.sqrt⟩ (90 : ℝ) 100 0 =
        .ok (poissonLikelihood ⟨Real.log, fun x => Real.log |Real.Gamma x|, Real.sqrt⟩ 90 100 0) ∧
      SAYUninformedLikelihood ⟨Real.log, fun x => Real.log |Real.Gamma x|, Real.sqrt⟩
          (90 : ℝ) 100 0 =
        .ok (poissonLikelihood ⟨Real.log, fun x => Real.log |Real.Gamma x|, Real.sqrt⟩ 90 100 0)) :=
  ⟨by norm_num, SAY_zero_variance_eq_poisson _ 90 100 (by norm_num)⟩

/-- C2: for every `k`, `w_sum`, `w2_sum` with `w_sum ≤ 0` or `w2_sum < 0`, each of
`SAYMeanLikelihood`, `SAYModeLikelihood` and `SAYUninformedLikelihood` returns `0`
when `k = 0` and `-infinity` otherwise; in particular `SAYMeanLikelihood k 0 w2_sum`
with `w2_sum ≥ 0` is `0` if `k = 0` and `-infinity` for every other `k`. -/
theorem SAY_degenerate_input (m : CMath T) (k : T) :
    (∀ w_sum w2_sum : T, w_sum ≤ 0 ∨ w2_sum < 0 →
      SAYMeanLikelihood m k w_sum w2_sum = .ok (if k = 0 then .fin 0 else .negInf) ∧
      SAYModeLikelihood m k w_sum w2_sum = .ok (if k = 0 then .fin 0 else .negInf) ∧
      SAYUninformedLikelihood m k w_sum w2_sum = .ok (if k = 0 then .fin 0 else .negInf)) ∧
    (∀ w2_sum : T, 0 ≤ w2_sum →
      SAYMeanLikelihood m k 0 w2_sum = .ok (if k = 0 then .fin 0 else .negInf)) := by
  have key : ∀ w_sum w2_sum : T, w_sum ≤ 0 ∨ w2_sum < 0 →
      SAYMeanLikelihood m k w_sum w2_sum = .ok (if k = 0 then .fin 0 else .negInf) ∧
      SAYModeLikelihood m k w_sum w2_sum = .ok (if k = 0 then .fin 0 else .negInf) ∧
      SAYUninformedLikelihood m k w_sum w2_sum = .ok (if k = 0 then .fin 0 else .negInf) := by
    intro w_sum w2_sum h
    refine ⟨?_, ?_, ?_⟩
    · unfold SAYMeanLikelihood
      rw [if_pos h]
    · unfold SAYModeLikelihood
      rw [if_pos h]
    · unfold SAYUninformedLikelihood
      rw [if_pos h]
  exact ⟨key, fun w2_sum _ => (key 0 w2_sum (Or.inl le_rfl)).1⟩

/-- Instances of C2 over the reals: `w_sum = 0`, `w2_sum = 1` with `k = 0` and
with `k = 3`. -/
theorem SAY_degenerate_input_witness :
    SAYMeanLikelihood ⟨Real.log, fun x => Real.log |Real.Gamma x|, Real.sqrt⟩ (0 : ℝ) 0 1 =
      .ok (.fin 0) ∧
    SAYMeanLikelihood ⟨Real.log, fun x => Real.log |Real.Gamma x|, Real.sqrt⟩ (3 : ℝ) 0 1 =
      .ok .negInf := by
  constructor
  · have h := (SAY_degenerate_input
      ⟨Real.log, fun x => Real.log |Real.Gamma x|, Real.sqrt⟩ (0 : ℝ)).2 1 (by norm_num)
    rw [h, if_pos rfl]
  · have h := (SAY_degenerate_input
      ⟨Real.log, fun x => Real.log |Real.Gamma x|, Real.sqrt⟩ (3 : ℝ)).2 1 (by norm_num)
    rw [h, if_neg (by norm_num)]

/-- C3: for every `k` and every `w2_sum`, `poissonLikelihood` with `lambda = 0`
returns `0` when `k = 0` and `-infinity` when `k ≠ 0` (so `Poisson(0,0) = 0` and
`Poisson(k>0,0) = -infinity`); the result does not depend on the `<cmath>`
functions, that is, neither `log` nor `lgamma` is evaluated. -/
theorem poissonLikelihood_zero_rate (m : CMath T) (k w2_sum : T) :
    poissonLikelihood m k 0 w2_sum = (if k = 0 then .fin 0 else .negInf) ∧
    poissonLikelihood m 0 0 w2_sum = .fin 0 ∧
    (k ≠ 0 → poissonLikelihood m k 0 w2_sum = .negInf) ∧
    (∀ m2 : CMath T, poissonLikelihood m2 k 0 w2_sum = poissonLikelihood m k 0 w2_sum) := by
  have h : ∀ (m1 : CMath T) (j : T),
      poissonLikelihood m1 j 0 w2_sum = (if j = 0 then .fin 0 else .negInf) := by
    intro m1 j
    unfold poissonLikelihood
    rw [if_pos rfl]
  refine ⟨h m k, ?_, ?_, ?_⟩
  · rw [h, if_pos rfl]
  · intro hk
    rw [h, if_neg hk]
  · intro m2
    rw [h, h]

end Degenerate


/-! ## Poisson and Gamma-prior Poisson likelihoods -/

section ClosedForms

/-- C4: for every real `k ≥ 0` and every `lambda > 0`, `poissonLikelihood` returns
`k * ln(lambda) - lambda - lgamma(k+1)` (for any implementation `m` of the
`<cmath>` functions); with the real `log` and `lgamma`, for every natural-number
`k` this equals `ln(lambda^k * e^(-lambda) / k!)`, the log of the Poisson
probability mass. -/
theorem poissonLikelihood_closed_form (k lam w2_sum : ℝ) (hk : 0 ≤ k) (hl : 0 < lam) :
    (∀ m : CMath ℝ,
      poissonLikelihood m k lam w2_sum = .fin (k * m.log lam - lam - m.lgamma (k + 1))) ∧
    (∀ n : ℕ,
      poissonLikelihood ⟨Real.log, fun x => Real.log |Real.Gamma x|, Real.sqrt⟩
          (n : ℝ) lam w2_sum =
        .fin (Real.log (lam ^ n * Real.exp (-lam) / (n.factorial : ℝ)))) := by
  have hne : lam ≠ 0 := ne_of_gt hl
  have gen : ∀ (m : CMath ℝ) (j : ℝ),
      poissonLikelihood m j lam w2_sum = .fin (j * m.log lam - lam - m.lgamma (j + 1)) := by
    intro m j
    unfold poissonLikelihood
    rw [if_neg hne]
    show Value.fin _ = Value.fin _
    congr 1
    ring
  refine ⟨fun m => gen m k, ?_⟩
  intro n
  rw [gen]
  congr 1
  have hfac : (0 : ℝ) < (n.factorial : ℝ) := by exact_mod_cast n.factorial_pos
  have hpow : lam ^ n ≠ 0 := pow_ne_zero n hne
  have hexp : Real.exp (-lam) ≠ 0 := (Real.exp_pos _).ne'
  show (n : ℝ) * Real.log lam - lam - Real.log |Real.Gamma ((n : ℝ) + 1)| = _
  rw [Real.Gamma_nat_eq_factorial, abs_of_pos hfac,
    Real.log_div (mul_ne_zero hpow hexp) hfac.ne', Real.log_mul hpow hexp, Real.log_pow,
    Real.log_exp]
  ring

/-- Instance of C4: `k = 3`, `lambda = 2`. -/
theorem poissonLikelihood_closed_form_witness :
    (0 : ℝ) ≤ 3 ∧ (0 : ℝ) < 2 ∧
    poissonLikelihood ⟨Real.log, fun x => Real.log |Real.Gamma x|, Real.sqrt⟩
        ((3 : ℕ) : ℝ) 2 0 =
      .fin (Real.log ((2 : ℝ) ^ 3 * Real.exp (-2) / ((3 : ℕ).factorial : ℝ))) :=
  ⟨by norm_num, by norm_num,
    (poissonLikelihood_closed_form 3 2 0 (by norm_num) (by norm_num)).2 3⟩

variable {T : Type} [LinearOrderedField T]

/-- C5: for every `k`, `alpha`, `beta`, `gammaPriorPoissonLikelihood` fails with the
domain error of `LogOnePlusX` exactly when `beta ≤ -1`, and otherwise returns
`alpha*ln(beta) + lgamma(k+alpha) - lgamma(k+1) - (k+alpha)*LogOnePlusX(beta)
- lgamma(alpha)` (the compensated sum of the five terms is their plain sum);
for `beta > 1e-4` this is the closed form with `ln(1+beta)`. -/
theorem gammaPriorPoissonLikelihood_spec (m : CMath T) (k alpha beta : T) :
    (gammaPriorPoissonLikelihood m k alpha beta = .error (.invalid_argument beta) ↔
      beta ≤ -1) ∧
    ((∃ e, gammaPriorPoissonLikelihood m k alpha beta = .error e) ↔ beta ≤ -1) ∧
    (-1 < beta → ∃ l, LogOnePlusX m beta = .ok l ∧
      gammaPriorPoissonLikelihood m k alpha beta =
        .ok (alpha * m.log beta + m.lgamma (k + alpha) - m.lgamma (k + 1)
              - (k + alpha) * l - m.lgamma alpha)) ∧
    (1 / 10000 < beta →
      gammaPriorPoissonLikelihood m k alpha beta =
        .ok (alpha * m.log beta + m.lgamma (k + alpha) - m.lgamma (k + 1)
              - (k + alpha) * m.log (1 + beta) - m.lgamma alpha)) := by
  have hle : beta ≤ -1 →
      gammaPriorPoissonLikelihood m k alpha beta = .error (.invalid_argument beta) := by
    intro h
    unfold gammaPriorPoissonLikelihood
    rw [LogOnePlusX_of_le m beta h]
    rfl
  have hgt : ∀ l, LogOnePlusX m beta = .ok l →
      gammaPriorPoissonLikelihood m k alpha beta =
        .ok (alpha * m.log beta + m.lgamma (k + alpha) - m.lgamma (k + 1)
              - (k + alpha) * l - m.lgamma alpha) := by
    intro l h
    unfold gammaPriorPoissonLikelihood
    rw [h]
    show Except.ok _ = Except.ok _
    rw [accumulate_five]
    congr 1
    ring
  have hok : -1 < beta → ∃ l, LogOnePlusX m beta = .ok l ∧
      gammaPriorPoissonLikelihood m k alpha beta =
        .ok (alpha * m.log beta + m.lgamma (k + alpha) - m.lgamma (k + 1)
              - (k + alpha) * l - m.lgamma alpha) := by
    intro h
    exact ⟨_, LogOnePlusX_of_gt m beta h, hgt _ (LogOnePlusX_of_gt m beta h)⟩
  refine ⟨⟨?_, hle⟩, ⟨?_, fun h => ⟨_, hle h⟩⟩, hok, ?_⟩
  · intro h
    by_contra hc
    obtain ⟨l, -, hl⟩ := hok (not_le.mp hc)
    rw [hl] at h
    cases h
  · rintro ⟨e, h⟩
    by_contra hc
    obtain ⟨l, -, hl⟩ := hok (not_le.mp hc)
    rw [hl] at h
    cases h
  · intro h
    have h1 : (-1 : T) < beta := lt_trans (by norm_num) h
    have habs : |beta| > 1 / 10000 := lt_of_lt_of_le h (le_abs_self beta)
    apply hgt
    rw [LogOnePlusX_of_gt m beta h1, if_pos habs]

/-- Instance of C5 over the reals: `k = 5`, `alpha = 2`, `beta = 0.5`. -/
theorem gammaPriorPoissonLikelihood_spec_witness :
    (1 : ℝ) / 10000 < 1 / 2 ∧
    gammaPriorPoissonLikelihood ⟨Real.log, fun x => Real.log |Real.Gamma x|, Real.sqrt⟩
        (5 : ℝ) 2 (1 / 2) =
      .ok (2 * Real.log (1 / 2) + Real.log |Real.Gamma (5 + 2)| - Real.log |Real.Gamma (5 + 1)|
            - (5 + 2) * Real.log (1 + 1 / 2) - Real.log |Real.Gamma 2|) :=
  ⟨by norm_num,
    (gammaPriorPoissonLikelihood_spec ⟨Real.log, fun x => Real.log |Real.Gamma x|, Real.sqrt⟩
      (5 : ℝ) 2 (1 / 2)).2.2.2 (by norm_num)⟩

end ClosedForms


/-! ## The three SAY functors on non-degenerate input -/

section NonDegenerate

variable {T : Type} [LinearOrderedField T]

/-- C6: for every `k` and every `w_sum > 0`, `w2_sum > 0`, `SAYMeanLikelihood`
equals `gammaPriorPoissonLikelihood(k, alpha, beta)` with `alpha = w_sum^2/w2_sum`
and `beta = w_sum/w2_sum`, and these parameters moment-match the Gamma prior:
its mean `alpha/beta` is `w_sum` and its variance `alpha/beta^2` is `w2_sum`. -/
theorem SAYMeanLikelihood_moment_match (m : CMath T) (k w_sum w2_sum : T)
    (hw : 0 < w_sum) (hw2 : 0 < w2_sum) :
    SAYMeanLikelihood m k w_sum w2_sum =
      (gammaPriorPoissonLikelihood m k (w_sum ^ 2 / w2_sum) (w_sum / w2_sum)).map .fin ∧
    (w_sum ^ 2 / w2_sum) / (w_sum / w2_sum) = w_sum ∧
    (w_sum ^ 2 / w2_sum) / (w_sum / w2_sum) ^ 2 = w2_sum := by
  obtain ⟨g1, g2, g3⟩ := nondegenerate_guards hw hw2
  refine ⟨?_, ?_, ?_⟩
  · unfold SAYMeanLikelihood
    rw [if_neg g1, if_neg g2]
    simp only [if_neg g3]
    rw [← bind_pure_fin, pow_two]
  · field_simp
    ring
  · field_simp
    ring

/-- Instance of C6 over the reals: `k = 90`, `w_sum = 100`, `w2_sum = 50`. -/
theorem SAYMeanLikelihood_moment_match_witness :
    (0 : ℝ) < 100 ∧ (0 : ℝ) < 50 ∧
    SAYMeanLikelihood ⟨Real.log, fun x => Real.log |Real.Gamma x|, Real.sqrt⟩ (90 : ℝ) 100 50 =
      (gammaPriorPoissonLikelihood ⟨Real.log, fun x => Real.log |Real.Gamma x|, Real.sqrt⟩
        (90 : ℝ) (100 ^ 2 / 50) (100 / 50)).map .fin :=
  ⟨by norm_num, by norm_num,
    (SAYMeanLikelihood_moment_match _ (90 : ℝ) 100 50 (by norm_num) (by norm_num)).1⟩

/-- C7: for every `k` and every `w_sum > 0`, `w2_sum > 0`, `SAYModeLikelihood`
equals `gammaPriorPoissonLikelihood(k, alpha, beta)` with `mu = w_sum`,
`sigma2 = w2_sum`, `beta = (mu + sqrt(mu^2 + 4*sigma2)) / (2*sigma2)` and
`alpha = (mu*sqrt(mu^2 + 4*sigma2)/sigma2 + mu^2/sigma2 + 2) / 2`. -/
theorem SAYModeLikelihood_parameters (m : CMath T) (k w_sum w2_sum : T)
    (hw : 0 < w_sum) (hw2 : 0 < w2_sum) :
    SAYModeLikelihood m k w_sum w2_sum =
      (gammaPriorPoissonLikelihood m k
        ((w_sum * m.sqrt (w_sum ^ 2 + 4 * w2_sum) / w2_sum + w_sum ^ 2 / w2_sum + 2) / 2)
        ((w_sum + m.sqrt (w_sum ^ 2 + 4 * w2_sum)) / (2 * w2_sum))).map .fin := by
  obtain ⟨g1, g2, g3⟩ := nondegenerate_guards hw hw2
  have e1 : w_sum * w_sum + w2_sum * 4 = w_sum ^ 2 + 4 * w2_sum := by ring
  have e2 : w2_sum * 2 = 2 * w2_sum := by ring
  unfold SAYModeLikelihood
  rw [if_neg g1, if_neg g2]
  simp only [if_neg g3]
  rw [← bind_pure_fin, e1, e2, pow_two]

/-- Instance of C7 over the reals: `k = 90`, `w_sum = 100`, `w2_sum = 50`. -/
theorem SAYModeLikelihood_parameters_witness :
    (0 : ℝ) < 100 ∧ (0 : ℝ) < 50 ∧
    SAYModeLikelihood ⟨Real.log, fun x => Real.log |Real.Gamma x|, Real.sqrt⟩ (90 : ℝ) 100 50 =
      (gammaPriorPoissonLikelihood ⟨Real.log, fun x => Real.log |Real.Gamma x|, Real.sqrt⟩
        (90 : ℝ)
        ((100 * Real.sqrt (100 ^ 2 + 4 * 50) / 50 + 100 ^ 2 / 50 + 2) / 2)
        ((100 + Real.sqrt (100 ^ 2 + 4 * 50)) / (2 * 50))).map .fin :=
  ⟨by norm_num, by norm_num,
    SAYModeLikelihood_parameters ⟨Real.log, fun x => Real.log |Real.Gamma x|, Real.sqrt⟩
      (90 : ℝ) 100 50 (by norm_num) (by norm_num)⟩

/-- C8: for every `k` and every `w_sum > 0`, `w2_sum > 0`,
`SAYUninformedLikelihood` equals `gammaPriorPoissonLikelihood(k, alpha_mean + 1,
beta_mean)`, where `alpha_mean = w_sum^2/w2_sum` and `beta_mean = w_sum/w2_sum`
are the parameters `SAYMeanLikelihood` uses on the same input. -/
theorem SAYUninformedLikelihood_shift (m : CMath T) (k w_sum w2_sum : T)
    (hw : 0 < w_sum) (hw2 : 0 < w2_sum) :
    SAYUninformedLikelihood m k w_sum w2_sum =
      (gammaPriorPoissonLikelihood m k (w_sum ^ 2 / w2_sum + 1) (w_sum / w2_sum)).map .fin ∧
    SAYMeanLikelihood m k w_sum w2_sum =
      (gammaPriorPoissonLikelihood m k (w_sum ^ 2 / w2_sum) (w_sum / w2_sum)).map .fin := by
  obtain ⟨g1, g2, g3⟩ := nondegenerate_guards hw hw2
  constructor
  · unfold SAYUninformedLikelihood
    rw [if_neg g1, if_neg g2]
    simp only [if_neg g3]
    rw [← bind_pure_fin, pow_two]
  · unfold SAYMeanLikelihood
    rw [if_neg g1, if_neg g2]
    simp only [if_neg g3]
    rw [← bind_pure_fin, pow_two]

/-- Instance of C8 over the reals: `k = 90`, `w_sum = 100`, `w2_sum = 50`. -/
theorem SAYUninformedLikelihood_shift_witness :
    (0 : ℝ) < 100 ∧ (0 : ℝ) < 50 ∧
    SAYUninformedLikelihood ⟨Real.log, fun x => Real.log |Real.Gamma x|, Real.sqrt⟩
        (90 : ℝ) 100 50 =
      (gammaPriorPoissonLikelihood ⟨Real.log, fun x => Real.log |Real.Gamma x|, Real.sqrt⟩
        (90 : ℝ) (100 ^ 2 / 50 + 1) (100 / 50)).map .fin :=
  ⟨by norm_num, by norm_num,
    (SAYUninformedLikelihood_shift _ (90 : ℝ) 100 50 (by norm_num) (by norm_num)).1⟩

end NonDegenerate

/-! ## Accurate `log(1+x)` -/

section Log1p

variable {T : Type} [LinearOrderedField T]

/-- C9: for every `x`, `LogOnePlusX(x)` fails with a domain error if and only if
`x ≤ -1`, and the error it raises carries the offending value `x`; for every
`x > -1` it returns a value. -/
theorem LogOnePlusX_domain (m : CMath T) (x : T) :
    ((∃ e, LogOnePlusX m x = .error e) ↔ x ≤ -1) ∧
    (∀ e, LogOnePlusX m x = .error e → e = .invalid_argument x) ∧
    (x ≤ -1 → LogOnePlusX m x = .error (.invalid_argument x)) ∧
    (-1 < x → ∃ v, LogOnePlusX m x = .ok v) := by
  have hgt : -1 < x → ∃ v, LogOnePlusX m x = .ok v :=
    fun h => ⟨_, LogOnePlusX_of_gt m x h⟩
  have herr : ∀ e, LogOnePlusX m x = .error e → x ≤ -1 := by
    intro e h
    by_contra hc
    obtain ⟨v, hv⟩ := hgt (not_le.mp hc)
    rw [hv] at h
    cases h
  refine ⟨⟨fun ⟨e, h⟩ => herr e h, fun h => ⟨_, LogOnePlusX_of_le m x h⟩⟩, ?_,
    LogOnePlusX_of_le m x, hgt⟩
  intro e h
  have h2 := LogOnePlusX_of_le m x (herr e h)
  rw [h] at h2
  cases h2
  rfl

/-- Instances of C9 over the reals: the error at `x = -1` carries `-1`, and
`x = -0.99` yields a value. -/
theorem LogOnePlusX_domain_witness :
    LogOnePlusX ⟨Real.log, fun x => Real.log |Real.Gamma x|, Real.sqrt⟩ (-1 : ℝ) =
      .error (.invalid_argument (-1)) ∧
    ∃ v, LogOnePlusX ⟨Real.log, fun x => Real.log |Real.Gamma x|, Real.sqrt⟩
      (-99 / 100 : ℝ) = .ok v :=
  ⟨(LogOnePlusX_domain _ (-1 : ℝ)).2.2.1 le_rfl,
    (LogOnePlusX_domain _ (-99 / 100 : ℝ)).2.2.2 (by norm_num)⟩

/-- C10: for every `x > -1`: if `|x| > 1e-4` then `LogOnePlusX(x)` returns
`ln(1+x)`; otherwise (including `|x|` exactly `1e-4`) it returns the 4-term series
`x - x^2/2 + x^3/3 - x^4/4`; and `LogOnePlusX(0) = 0`. -/
theorem LogOnePlusX_value (m : CMath T) (x : T) (hx : -1 < x) :
    (1 / 10000 < |x| → LogOnePlusX m x = .ok (m.log (1 + x))) ∧
    (|x| ≤ 1 / 10000 → LogOnePlusX m x = .ok (x - x ^ 2 / 2 + x ^ 3 / 3 - x ^ 4 / 4)) ∧
    LogOnePlusX m 0 = .ok 0 := by
  have series : ∀ y : T, -1 < y → |y| ≤ 1 / 10000 →
      LogOnePlusX m y = .ok (y - y ^ 2 / 2 + y ^ 3 / 3 - y ^ 4 / 4) := by
    intro y hy h
    rw [LogOnePlusX_of_gt m y hy, if_neg (not_lt.mpr h)]
    congr 1
    ring
  refine ⟨?_, series x hx, ?_⟩
  · intro h
    rw [LogOnePlusX_of_gt m x hx, if_pos h]
  · rw [series 0 (by norm_num) (by norm_num)]
    congr 1
    norm_num

/-- Instance of C10 over the reals at the threshold itself, `x = 1e-4`: the
series is used. -/
theorem LogOnePlusX_value_witness :
    (-1 : ℝ) < 1 / 10000 ∧ |(1 / 10000 : ℝ)| ≤ 1 / 10000 ∧
    LogOnePlusX ⟨Real.log, fun x => Real.log |Real.Gamma x|, Real.sqrt⟩ (1 / 10000 : ℝ) =
      .ok (1 / 10000 - (1 / 10000) ^ 2 / 2 + (1 / 10000) ^ 3 / 3 - (1 / 10000) ^ 4 / 4) :=
  ⟨by norm_num, by rw [abs_of_pos (by norm_num)],
    (LogOnePlusX_value _ (1 / 10000 : ℝ) (by norm_num)).2.1 (by rw [abs_of_pos (by norm_num)])⟩

end Log1p


/-! ## Compensated summation and the chi-square functors -/

section Summation

variable {T : Type} [LinearOrderedField T]

/-- C14: for every finite sequence, `accumulate` returns, in exact arithmetic,
the ordinary sum of the elements taken in order; the `running_error` correction is
`0` after every loop iteration (the state after `n` iterations is the loop run on
the first `n` elements); and the empty sequence gives the additive identity `0`. -/
theorem accumulate_exact (xs : List T) :
    accumulate xs = xs.sum ∧
    (∀ n : ℕ, accumulateLoop (xs.take n) = ((xs.take n).sum, 0)) ∧
    (∀ (n : ℕ) (x : T), (accumulateStep (accumulateLoop (xs.take n)) x).2 = 0) ∧
    accumulate ([] : List T) = 0 := by
  refine ⟨?_, fun n => accumulateLoop_eq _, ?_, ?_⟩
  · rw [accumulate, accumulateLoop_eq]
  · intro n x
    rw [accumulateLoop_eq]
    simp only [accumulateStep]
    ring
  · rw [accumulate, accumulateLoop_eq]
    rfl

end Summation


/-! ## Zero variance with an unrestricted weight sum -/

section ZeroVariance

variable {T : Type} [LinearOrderedField T]

/-- C15 fails as stated: at `k = 1`, `w_sum = -1`, `w2_sum = 0` the three SAY
functors return `-infinity` (first guard), while `poissonLikelihood(1, -1, 0)`
evaluates its formula and returns a number. -/
theorem SAY_zero_variance_negative_sum_counterexample :
    SAYMeanLikelihood ⟨Real.log, fun x => Real.log |Real.Gamma x|, Real.sqrt⟩ (1 : ℝ) (-1) 0 =
      .ok .negInf ∧
    SAYModeLikelihood ⟨Real.log, fun x => Real.log |Real.Gamma x|, Real.sqrt⟩ (1 : ℝ) (-1) 0 =
      .ok .negInf ∧
    SAYUninformedLikelihood ⟨Real.log, fun x => Real.log |Real.Gamma x|, Real.sqrt⟩
      (1 : ℝ) (-1) 0 = .ok .negInf ∧
    poissonLikelihood ⟨Real.log, fun x => Real.log |Real.Gamma x|, Real.sqrt⟩ (1 : ℝ) (-1) 0 =
      .fin (1 * Real.log (-1) - (-1 + Real.log |Real.Gamma (1 + 1)|)) ∧
    SAYMeanLikelihood ⟨Real.log, fun x => Real.log |Real.Gamma x|, Real.sqrt⟩ (1 : ℝ) (-1) 0 ≠
      .ok (poissonLikelihood ⟨Real.log, fun x => Real.log |Real.Gamma x|, Real.sqrt⟩
        (1 : ℝ) (-1) 0) := by
  have hg := SAY_first_guard ⟨Real.log, fun x => Real.log |Real.Gamma x|, Real.sqrt⟩
    (1 : ℝ) (-1) 0 (Or.inl (by norm_num))
  rw [if_neg (by norm_num)] at hg
  have hp : poissonLikelihood ⟨Real.log, fun x => Real.log |Real.Gamma x|, Real.sqrt⟩
      (1 : ℝ) (-1) 0 = .fin (1 * Real.log (-1) - (-1 + Real.log |Real.Gamma (1 + 1)|)) := by
    unfold poissonLikelihood
    rw [if_neg (by norm_num)]
  refine ⟨hg.1, hg.2.1, hg.2.2, hp, ?_⟩
  rw [hg.1, hp]
  intro h
  cases h

/-- C15 (amended): for every count `k` and every `w_sum ≥ 0`, when `w2_sum = 0`
each of `SAYMeanLikelihood`, `SAYModeLikelihood` and `SAYUninformedLikelihood`
produces exactly `poissonLikelihood(k, w_sum, w2_sum)`. -/
theorem SAY_zero_variance_nonneg_sum (m : CMath T) (k w_sum : T) (hw : 0 ≤ w_sum) :
    SAYMeanLikelihood m k w_sum 0 = .ok (poissonLikelihood m k w_sum 0) ∧
    SAYModeLikelihood m k w_sum 0 = .ok (poissonLikelihood m k w_sum 0) ∧
    SAYUninformedLikelihood m k w_sum 0 = .ok (poissonLikelihood m k w_sum 0) := by
  rcases hw.eq_or_lt with h0 | hpos
  · subst h0
    have hp : poissonLikelihood m k 0 0 = (if k = 0 then .fin 0 else .negInf) := by
      unfold poissonLikelihood
      rw [if_pos rfl]
    rw [hp]
    exact SAY_first_guard m k 0 0 (Or.inl le_rfl)
  · exact SAY_second_guard m k w_sum hpos

/-- Instance of the amended C15 at the boundary `w_sum = 0`, with `k = 3`. -/
theorem SAY_zero_variance_nonneg_sum_witness :
    (0 : ℝ) ≤ 0 ∧
    SAYMeanLikelihood ⟨Real.log, fun x => Real.log |Real.Gamma x|, Real.sqrt⟩ (3 : ℝ) 0 0 =
      .ok (poissonLikelihood ⟨Real.log, fun x => Real.log |Real.Gamma x|, Real.sqrt⟩ 3 0 0) :=
  ⟨le_rfl, (SAY_zero_variance_nonneg_sum _ (3 : ℝ) 0 le_rfl).1⟩

end ZeroVariance


/-! ## Derived Gamma parameters of the SAY functors over the reals -/

section Parameters

/-- C16: for every `w_sum > 0` and `w2_sum > 0`, the `(alpha, beta)` that
`SAYModeLikelihood` derives (and passes to `gammaPriorPoissonLikelihood`) match the
mode and the variance of the Gamma prior to the empirical moments:
`(alpha - 1)/beta = w_sum` and `alpha/beta^2 = w2_sum`. -/
theorem SAYModeLikelihood_mode_variance_match (k w_sum w2_sum : ℝ)
    (hw : 0 < w_sum) (hw2 : 0 < w2_sum) :
    SAYModeLikelihood ⟨Real.log, fun x => Real.log |Real.Gamma x|, Real.sqrt⟩ k w_sum w2_sum =
      (gammaPriorPoissonLikelihood ⟨Real.log, fun x => Real.log |Real.Gamma x|, Real.sqrt⟩ k
        ((w_sum * Real.sqrt (w_sum * w_sum + w2_sum * 4) / w2_sum
            + w_sum * w_sum / w2_sum + 2) / 2)
        ((w_sum + Real.sqrt (w_sum * w_sum + w2_sum * 4)) / (w2_sum * 2))).map .fin ∧
    ((w_sum * Real.sqrt (w_sum * w_sum + w2_sum * 4) / w2_sum
          + w_sum * w_sum / w2_sum + 2) / 2 - 1) /
        ((w_sum + Real.sqrt (w_sum * w_sum + w2_sum * 4)) / (w2_sum * 2)) = w_sum ∧
    ((w_sum * Real.sqrt (w_sum * w_sum + w2_sum * 4) / w2_sum
          + w_sum * w_sum / w2_sum + 2) / 2) /
        ((w_sum + Real.sqrt (w_sum * w_sum + w2_sum * 4)) / (w2_sum * 2)) ^ 2 = w2_sum := by
  refine ⟨SAYModeLikelihood_delegates _ k w_sum w2_sum hw hw2, ?_⟩
  obtain ⟨-, hsq, hlt⟩ := mode_sqrt_facts w_sum w2_sum hw hw2
  generalize Real.sqrt (w_sum * w_sum + w2_sum * 4) = D at hsq hlt
  have hD : 0 < w_sum + D := by linarith
  constructor
  · field_simp
    ring
  · field_simp
    linear_combination (-2 * w2_sum ^ 2) * hsq

/-- Instance of C16: `w_sum = 100`, `w2_sum = 50` (with `k = 90`). -/
theorem SAYModeLikelihood_mode_variance_match_witness :
    (0 : ℝ) < 100 ∧ (0 : ℝ) < 50 ∧
    (((100 : ℝ) * Real.sqrt (100 * 100 + 50 * 4) / 50 + 100 * 100 / 50 + 2) / 2 - 1) /
        ((100 + Real.sqrt (100 * 100 + 50 * 4)) / (50 * 2)) = 100 ∧
    (((100 : ℝ) * Real.sqrt (100 * 100 + 50 * 4) / 50 + 100 * 100 / 50 + 2) / 2) /
        ((100 + Real.sqrt (100 * 100 + 50 * 4)) / (50 * 2)) ^ 2 = 50 :=
  ⟨by norm_num, by norm_num,
    (SAYModeLikelihood_mode_variance_match 90 100 50 (by norm_num) (by norm_num)).2⟩

/-- C19: for every `k`, `w_sum`, `w2_sum` (any real values), none of
`SAYMeanLikelihood`, `SAYModeLikelihood`, `SAYUninformedLikelihood` raises the
domain error of `LogOnePlusX`: each call returns a value; and on the inputs that
reach `LogOnePlusX` (`w_sum > 0`, `w2_sum > 0`) its argument `beta` is greater
than `-1`. -/
theorem SAY_never_raises (k w_sum w2_sum : ℝ) :
    (∃ v, SAYMeanLikelihood ⟨Real.log, fun x => Real.log |Real.Gamma x|, Real.sqrt⟩
        k w_sum w2_sum = .ok v) ∧
    (∃ v, SAYModeLikelihood ⟨Real.log, fun x => Real.log |Real.Gamma x|, Real.sqrt⟩
        k w_sum w2_sum = .ok v) ∧
    (∃ v, SAYUninformedLikelihood ⟨Real.log, fun x => Real.log |Real.Gamma x|, Real.sqrt⟩
        k w_sum w2_sum = .ok v) ∧
    (0 < w_sum → 0 < w2_sum →
      -1 < w_sum / w2_sum ∧
      -1 < (w_sum + Real.sqrt (w_sum * w_sum + w2_sum * 4)) / (w2_sum * 2)) := by
  have hbeta : 0 < w_sum → 0 < w2_sum →
      -1 < w_sum / w2_sum ∧
      -1 < (w_sum + Real.sqrt (w_sum * w_sum + w2_sum * 4)) / (w2_sum * 2) := by
    intro hw hw2
    have h0 := Real.sqrt_nonneg (w_sum * w_sum + w2_sum * 4)
    have hb : 0 < w_sum / w2_sum := by positivity
    have hB : 0 < (w_sum + Real.sqrt (w_sum * w_sum + w2_sum * 4)) / (w2_sum * 2) := by
      positivity
    exact ⟨by linarith, by linarith⟩
  have key : ∀ (F : ℝ → ℝ → ℝ → Except (Error ℝ) (Value ℝ)) (a b : ℝ),
      (w_sum ≤ 0 ∨ w2_sum < 0 →
        F k w_sum w2_sum = .ok (if k = 0 then .fin 0 else .negInf)) →
      (0 < w_sum → w2_sum = 0 → ∃ v, F k w_sum w2_sum = .ok v) →
      (0 < w_sum → 0 < w2_sum →
        F k w_sum w2_sum = (gammaPriorPoissonLikelihood
            ⟨Real.log, fun x => Real.log |Real.Gamma x|, Real.sqrt⟩ k a b).map .fin ∧ -1 < b) →
      ∃ v, F k w_sum w2_sum = .ok v := by
    intro F a b h1 h2 h3
    by_cases hg : w_sum ≤ 0 ∨ w2_sum < 0
    · exact ⟨_, h1 hg⟩
    · have hw : 0 < w_sum := not_le.mp (fun h => hg (Or.inl h))
      have hw2 : 0 ≤ w2_sum := not_lt.mp (fun h => hg (Or.inr h))
      rcases hw2.eq_or_lt with h0 | hpos
      · exact h2 hw h0.symm
      · obtain ⟨hF, hb⟩ := h3 hw hpos
        obtain ⟨v, hv⟩ := gammaPriorPoissonLikelihood_ok
            ⟨Real.log, fun x => Real.log |Real.Gamma x|, Real.sqrt⟩ k a b hb
        rw [hF, hv]
        exact ⟨Value.fin v, rfl⟩
  refine ⟨?_, ?_, ?_, hbeta⟩
  · apply key (SAYMeanLikelihood ⟨Real.log, fun x => Real.log |Real.Gamma x|, Real.sqrt⟩
      ) (w_sum * w_sum / w2_sum) (w_sum / w2_sum)
    · exact fun hg => (SAY_first_guard _ k w_sum w2_sum hg).1
    · intro hw h0
      subst h0
      exact ⟨_, (SAY_second_guard _ k w_sum hw).1⟩
    · exact fun hw hw2 =>
        ⟨SAYMeanLikelihood_delegates _ k w_sum w2_sum hw hw2, (hbeta hw hw2).1⟩
  · apply key (SAYModeLikelihood ⟨Real.log, fun x => Real.log |Real.Gamma x|, Real.sqrt⟩)
      ((w_sum * Real.sqrt (w_sum * w_sum + w2_sum * 4) / w2_sum
        + w_sum * w_sum / w2_sum + 2) / 2)
      ((w_sum + Real.sqrt (w_sum * w_sum + w2_sum * 4)) / (w2_sum * 2))
    · exact fun hg => (SAY_first_guard _ k w_sum w2_sum hg).2.1
    · intro hw h0
      subst h0
      exact ⟨_, (SAY_second_guard _ k w_sum hw).2.1⟩
    · exact fun hw hw2 =>
        ⟨SAYModeLikelihood_delegates _ k w_sum w2_sum hw hw2, (hbeta hw hw2).2⟩
  · apply key (SAYUninformedLikelihood ⟨Real.log, fun x => Real.log |Real.Gamma x|, Real.sqrt⟩
      ) (w_sum * w_sum / w2_sum + 1) (w_sum / w2_sum)
    · exact fun hg => (SAY_first_guard _ k w_sum w2_sum hg).2.2
    · intro hw h0
      subst h0
      exact ⟨_, (SAY_second_guard _ k w_sum hw).2.2⟩
    · exact fun hw hw2 =>
        ⟨SAYUninformedLikelihood_delegates _ k w_sum w2_sum hw hw2, (hbeta hw hw2).1⟩

end Parameters


/-! ## Accuracy of `LogOnePlusX` and sign of the Poisson likelihood -/

section Bounds

/-- C11: in exact real arithmetic, for every `x > -1` the value `v` returned by
`LogOnePlusX(x)` satisfies `|v - ln(1+x)| ≤ 1e-8 * |ln(1+x)|`, and for every `x`
with `|x| ≤ 1e-4` (the series regime) it also satisfies `|v - ln(1+x)| < 1e-12`. -/
theorem LogOnePlusX_accuracy (x : ℝ) (hx : -1 < x) :
    ∃ v, LogOnePlusX ⟨Real.log, fun x => Real.log |Real.Gamma x|, Real.sqrt⟩ x = .ok v ∧
      |v - Real.log (1 + x)| ≤ 1 / 10 ^ 8 * |Real.log (1 + x)| ∧
      (|x| ≤ 1 / 10000 → |v - Real.log (1 + x)| < 1 / 10 ^ 12) := by
  by_cases h : |x| > 1 / 10000
  · refine ⟨Real.log (1 + x), ?_, ?_, ?_⟩
    · rw [LogOnePlusX_of_gt _ x hx, if_pos h]
    · rw [sub_self, abs_zero]
      positivity
    · intro hle
      exact absurd h (not_lt.mpr hle)
  · have hle : |x| ≤ 1 / 10000 := not_lt.mp h
    have herr := log1p_series_error x hle
    obtain ⟨b1, b2⟩ := series_bounds |x| (abs_nonneg x) hle
    have hlow := log1p_abs_lower x hle
    refine ⟨x - x * x / 2 + x * x * x / 3 - x * x * x * x / 4, ?_, ?_, ?_⟩
    · rw [LogOnePlusX_of_gt _ x hx, if_neg h]
    · calc |x - x * x / 2 + x * x * x / 3 - x * x * x * x / 4 - Real.log (1 + x)|
          ≤ |x| ^ 5 / (1 - |x|) := herr
        _ ≤ 1 / 10 ^ 8 * (|x| / 2) := b2
        _ ≤ 1 / 10 ^ 8 * |Real.log (1 + x)| :=
          mul_le_mul_of_nonneg_left hlow (by positivity)
    · intro _
      exact lt_of_le_of_lt herr b1

/-- Instances of C11 at `x = -0.99, -1e-5, 0, 1e-5, 1, 1000`. -/
theorem LogOnePlusX_accuracy_witness :
    ((-1 : ℝ) < -99 / 100 ∧ ∃ v, LogOnePlusX ⟨Real.log, fun x => Real.log |Real.Gamma x|, Real.sqrt⟩
        (-99 / 100 : ℝ) = .ok v ∧
      |v - Real.log (1 + -99 / 100)| ≤ 1 / 10 ^ 8 * |Real.log (1 + -99 / 100)| ∧
      (|(-99 / 100 : ℝ)| ≤ 1 / 10000 → |v - Real.log (1 + -99 / 100)| < 1 / 10 ^ 12)) ∧
    ((-1 : ℝ) < -1 / 100000 ∧ ∃ v, LogOnePlusX
        ⟨Real.log, fun x => Real.log |Real.Gamma x|, Real.sqrt⟩ (-1 / 100000 : ℝ) = .ok v ∧
      |v - Real.log (1 + -1 / 100000)| ≤ 1 / 10 ^ 8 * |Real.log (1 + -1 / 100000)| ∧
      (|(-1 / 100000 : ℝ)| ≤ 1 / 10000 → |v - Real.log (1 + -1 / 100000)| < 1 / 10 ^ 12)) ∧
    ((-1 : ℝ) < 0 ∧ ∃ v, LogOnePlusX ⟨Real.log, fun x => Real.log |Real.Gamma x|, Real.sqrt⟩
        (0 : ℝ) = .ok v ∧
      |v - Real.log (1 + 0)| ≤ 1 / 10 ^ 8 * |Real.log (1 + 0)| ∧
      (|(0 : ℝ)| ≤ 1 / 10000 → |v - Real.log (1 + 0)| < 1 / 10 ^ 12)) ∧
    ((-1 : ℝ) < 1 / 100000 ∧ ∃ v, LogOnePlusX
        ⟨Real.log, fun x => Real.log |Real.Gamma x|, Real.sqrt⟩ (1 / 100000 : ℝ) = .ok v ∧
      |v - Real.log (1 + 1 / 100000)| ≤ 1 / 10 ^ 8 * |Real.log (1 + 1 / 100000)| ∧
      (|(1 / 100000 : ℝ)| ≤ 1 / 10000 → |v - Real.log (1 + 1 / 100000)| < 1 / 10 ^ 12)) ∧
    ((-1 : ℝ) < 1 ∧ ∃ v, LogOnePlusX ⟨Real.log, fun x => Real.log |Real.Gamma x|, Real.sqrt⟩
        (1 : ℝ) = .ok v ∧
      |v - Real.log (1 + 1)| ≤ 1 / 10 ^ 8 * |Real.log (1 + 1)| ∧
      (|(1 : ℝ)| ≤ 1 / 10000 → |v - Real.log (1 + 1)| < 1 / 10 ^ 12)) ∧
    ((-1 : ℝ) < 1000 ∧ ∃ v, LogOnePlusX ⟨Real.log, fun x => Real.log |Real.Gamma x|, Real.sqrt⟩
        (1000 : ℝ) = .ok v ∧
      |v - Real.log (1 + 1000)| ≤ 1 / 10 ^ 8 * |Real.log (1 + 1000)| ∧
      (|(1000 : ℝ)| ≤ 1 / 10000 → |v - Real.log (1 + 1000)| < 1 / 10 ^ 12)) :=
  ⟨⟨by norm_num, LogOnePlusX_accuracy _ (by norm_num)⟩,
    ⟨by norm_num, LogOnePlusX_accuracy _ (by norm_num)⟩,
    ⟨by norm_num, LogOnePlusX_accuracy _ (by norm_num)⟩,
    ⟨by norm_num, LogOnePlusX_accuracy _ (by norm_num)⟩,
    ⟨by norm_num, LogOnePlusX_accuracy _ (by norm_num)⟩,
    ⟨by norm_num, LogOnePlusX_accuracy _ (by norm_num)⟩⟩

end Bounds

end detail
end SAY
